import Mathlib

/-!
Verification of the inter-rater reliability (IRR) statistical engine of the
Digital-Platform-Boundary-Resources repository.

The Python sources `Scripts/irr_calculator.py` and `Scripts/human_irr_calculator.py`
are shallowly embedded below.  Python floats are modelled as exact rationals
(`Rat`); Python `None` is `Option.none`; a possibly-NaN float (as produced by
sklearn's `cohen_kappa_score`) is modelled by the `PyFloat` type.  Normalized
rating values are integers (`int(float(v))` in `_normalize_value`), so the
categorical statistics work over `Option Int` lists.
-/

/-- Truncation of a rational toward zero, the behaviour of Python `int(float(v))`. -/
def truncRat (q : Rat) : Int := if 0 ≤ q then q.floor else -((-q).floor)

/-- Sorted list of the distinct elements of `l`: Python `sorted(set(l))`. -/
def sortDedup (l : List Int) : List Int := (l.dedup).insertionSort (· ≤ ·)

/-- Keep a pair only when both components are present; used to model the
list comprehensions `[(v1, v2) ... if v1 is not None and v2 is not None]`. -/
def pickPair {α β : Type} : Option α × Option β → Option (α × β)
  | (some a, some b) => some (a, b)
  | _ => none

/-- The valid pairs of two rater value lists: both values non-missing
(`zip` + comprehension filter in the Python sources). -/
def validPairs {α β : Type} (v1 : List (Option α)) (v2 : List (Option β)) : List (α × β) :=
  (v1.zip v2).filterMap pickPair

/-- Sum of `d x y` over all unordered pairs of positions `i < j` of a list,
the `for i in range(n): for j in range(i+1, n)` double loop. -/
def pairSum {α : Type} (d : α → α → Rat) : List α → Rat
  | [] => 0
  | x :: xs => (xs.map (d x)).sum + pairSum d xs

/-- Number of unordered pairs of positions of a list (the pair counter that
the same double loop increments). -/
def pairCount {α : Type} : List α → Nat
  | [] => 0
  | _ :: xs => xs.length + pairCount xs

/-- Mean of a list of rationals, `None` on the empty list: models
`float(np.mean(xs)) if xs else None`. -/
def pyMean (l : List Rat) : Option Rat :=
  if l.isEmpty then none else some (l.sum / (l.length : Rat))

/-- Subject-major rows built from rater-major value lists:
`[[vl[i] for vl in value_lists] for i in range(len(value_lists[0]))]`.
An out-of-range index (an `IndexError`, swallowed by the `try/except` wrappers
in the Python source) or an empty list of raters makes the whole build fail. -/
def buildRows {α : Type} (lists : List (List (Option α))) : Option (List (List (Option α))) :=
  match lists with
  | [] => none
  | l0 :: _ => (List.range l0.length).mapM (fun i => lists.mapM (fun l => l.get? i))

namespace IRR

/-- Raw value supplied to `IRRCalculator._normalize_value`.  Python string
parsing is abstracted: `numStr q` is a string that `float()` parses to the
rational `q`, `badStr` is a string on which `float()` raises, `emptyStr` is a
string that strips to the empty string, `numVal q` is an `int`/`float` with
value `q`, and `nanVal` is a float NaN. -/
inductive RawVal where
  | pyNone
  | emptyStr
  | nanVal
  | numStr (q : Rat)
  | badStr
  | numVal (q : Rat)
deriving DecidableEq

/-- Embedding of `IRRCalculator._normalize_value` (`irr_calculator.py:148-159`):
`None`, empty strings and NaN map to `None`; any other value is parsed and
truncated by `int(float(v))`; a parse failure maps to `None`.  (The unused
`var` parameter of the Python method is dropped.) -/
def normalize_value (v : RawVal) : Option Int :=
  match v with
  | .pyNone => none
  | .emptyStr => none
  | .nanVal => none
  | .numStr q => some (truncRat q)
  | .badStr => none
  | .numVal q => some (truncRat q)

/-- Embedding of `IRRCalculator.calculate_agreement` (`irr_calculator.py:161-168`). -/
def calculate_agreement (v1 v2 : List (Option Int)) : Option Rat :=
  let vp := validPairs v1 v2
  if vp.length = 0 then none
  else some ((vp.countP (fun p => decide (p.1 = p.2)) : Rat) / (vp.length : Rat))

/-- Number of valid pairs, stated the way the specification words it: pairs of
positions where both raters are non-missing. -/
def numValidPairs (v1 v2 : List (Option Int)) : Nat :=
  (v1.zip v2).countP (fun p => p.1.isSome && p.2.isSome)

/-- Number of valid pairs whose two values are equal, stated the way the
specification words it. -/
def numMatchingPairs (v1 v2 : List (Option Int)) : Nat :=
  (v1.zip v2).countP (fun p =>
    match p with
    | (some a, some b) => decide (a = b)
    | _ => false)

/-- Python float that may be NaN (sklearn's `cohen_kappa_score` returns NaN on
a degenerate contingency table). -/
inductive PyFloat where
  | nan
  | val (x : Rat)
deriving DecidableEq

/-- Modelled from the spec: Cohen's Kappa κ = (Po − Pe)/(1 − Pe) from the
observed contingency table over valid pairs, NaN when Pe = 1.  The repository
calls sklearn's `cohen_kappa_score` here, which is a third-party library and
not part of the repository source. -/
def cohen_kappa_score (ps : List (Int × Int)) : PyFloat :=
  let n := ps.length
  let po : Rat := (ps.countP (fun p => decide (p.1 = p.2)) : Rat) / (n : Rat)
  let cats := sortDedup ((ps.map Prod.fst) ++ (ps.map Prod.snd))
  let pe : Rat := (cats.map (fun c =>
    (((ps.map Prod.fst).count c : Rat) / (n : Rat)) *
    (((ps.map Prod.snd).count c : Rat) / (n : Rat)))).sum
  if pe = 1 then .nan else .val ((po - pe) / (1 - pe))

/-- Embedding of `IRRCalculator.calculate_kappa` (`irr_calculator.py:170-182`),
with the sklearn score modelled by `cohen_kappa_score` above. -/
def calculate_kappa (v1 v2 : List (Option Int)) : Option PyFloat :=
  let vp := validPairs v1 v2
  if vp.length < 2 then none else some (cohen_kappa_score vp)

/-- Mean of the first rater's values over the valid pairs (`np.mean(v1)`). -/
def iccMean1 (vp : List (Rat × Rat)) : Rat := (vp.map Prod.fst).sum / (vp.length : Rat)

/-- Mean of the second rater's values over the valid pairs (`np.mean(v2)`). -/
def iccMean2 (vp : List (Rat × Rat)) : Rat := (vp.map Prod.snd).sum / (vp.length : Rat)

/-- Grand mean `(mean_v1 + mean_v2) / 2` of `calculate_icc`. -/
def iccGrand (vp : List (Rat × Rat)) : Rat := (iccMean1 vp + iccMean2 vp) / 2

/-- `MS_rows = 2 * sum((row_means - grand_mean)**2) / (n - 1)` of `calculate_icc`. -/
def iccMSrows (vp : List (Rat × Rat)) : Rat :=
  2 * ((vp.map (fun p => ((p.1 + p.2) / 2 - iccGrand vp) ^ 2)).sum) / ((vp.length : Rat) - 1)

/-- `MS_error = sum((v1 - row_means)**2 + (v2 - row_means)**2) / n` of `calculate_icc`. -/
def iccMSerr (vp : List (Rat × Rat)) : Rat :=
  ((vp.map (fun p =>
    (p.1 - (p.1 + p.2) / 2) ^ 2 + (p.2 - (p.1 + p.2) / 2) ^ 2)).sum) / (vp.length : Rat)

/-- `MS_cols = n * ((mean_v1 - grand_mean)**2 + (mean_v2 - grand_mean)**2)` of `calculate_icc`. -/
def iccMScols (vp : List (Rat × Rat)) : Rat :=
  (vp.length : Rat) * ((iccMean1 vp - iccGrand vp) ^ 2 + (iccMean2 vp - iccGrand vp) ^ 2)

/-- Result clamp `max(-1, min(1, icc))` shared by both ICC functions. -/
def pyClamp (x : Rat) : Rat := max (-1) (min 1 x)

/-- Embedding of `IRRCalculator.calculate_icc` (`irr_calculator.py:184-211`),
ICC(2,1) for two raters.  (The redundant `pd.isna` test of the Python filter is
vacuous here: a non-`None` model value is never NaN.) -/
def calculate_icc (v1 v2 : List (Option Rat)) : Option Rat :=
  let vp := validPairs v1 v2
  if vp.length < 3 then none else
  if iccMSrows vp + iccMSerr vp = 0 then none else
  some (pyClamp ((iccMSrows vp - iccMSerr vp) /
    (iccMSrows vp + iccMSerr vp + 2 * (iccMScols vp - iccMSerr vp) / (vp.length : Rat))))

/-- Unclamped two-way ANOVA ICC(2,1) of `calculate_icc_multi` on the
fully-rated subject rows (`irr_calculator.py:230-251` before the clamp). -/
def iccMultiCore (valid : List (List Rat)) : Option Rat :=
  let n := valid.length
  let k := (valid.headD []).length
  let grand : Rat := (valid.flatten).sum / ((n : Rat) * (k : Rat))
  let rowMeans : List Rat := valid.map (fun r => r.sum / (k : Rat))
  let colMeans : List Rat :=
    (List.range k).map (fun j => (valid.map (fun r => r.getD j 0)).sum / (n : Rat))
  let SStotal : Rat := ((valid.flatten).map (fun x => (x - grand) ^ 2)).sum
  let SSrows : Rat := (k : Rat) * ((rowMeans.map (fun m => (m - grand) ^ 2)).sum)
  let SScols : Rat := (n : Rat) * ((colMeans.map (fun m => (m - grand) ^ 2)).sum)
  let SSerr : Rat := SStotal - SSrows - SScols
  let MSrows : Rat := SSrows / ((n : Rat) - 1)
  let MScols : Rat := if 1 < k then SScols / ((k : Rat) - 1) else 0
  let MSerr : Rat := if 0 < (n - 1) * (k - 1) then SSerr / (((n : Rat) - 1) * ((k : Rat) - 1)) else 0
  let denom : Rat := MSrows + ((k : Rat) - 1) * MSerr + (k : Rat) * (MScols - MSerr) / (n : Rat)
  if denom = 0 then none else some ((MSrows - MSerr) / denom)

/-- Embedding of `IRRCalculator.calculate_icc_multi` (`irr_calculator.py:213-254`),
ICC(2,1) for 3+ raters: fewer than 3 fully-rated subjects give `None`, a
degenerate denominator gives `None`, and any other result is clamped. -/
def calculate_icc_multi (lists : List (List (Option Rat))) : Option Rat :=
  match buildRows lists with
  | none => none
  | some rows =>
    let valid : List (List Rat) :=
      (rows.filter (fun r => r.all Option.isSome)).map (fun r => r.filterMap id)
    if valid.length < 3 then none else (iccMultiCore valid).map pyClamp

/-- Embedding of `IRRCalculator.calculate_gwet_ac1` (`irr_calculator.py:256-297`). -/
def calculate_gwet_ac1 (v1 v2 : List (Option Int)) : Option Rat :=
  let vp := validPairs v1 v2
  if vp.length < 2 then none else
  let n := vp.length
  let nMatch := vp.countP (fun p => decide (p.1 = p.2))
  let pa : Rat := (nMatch : Rat) / (n : Rat)
  let allVals : List Int := (vp.map Prod.fst) ++ (vp.map Prod.snd)
  let categories := sortDedup allVals
  let q := categories.length
  if q < 2 then none else
  let pe : Rat := (1 / ((q : Rat) - 1)) * ((categories.map (fun c =>
    let pk : Rat := (allVals.count c : Rat) / (2 * (n : Rat))
    pk * (1 - pk))).sum)
  if pe = 1 then none else some ((pa - pe) / (1 - pe))

/-- Observed-agreement fraction `pa`, stated the way the specification words
it: the fraction of valid pairs whose two values are equal. -/
def paSpec (v1 v2 : List (Option Int)) : Rat :=
  (numMatchingPairs v1 v2 : Rat) / (numValidPairs v1 v2 : Rat)

/-- All valid values pooled from both raters (each rater's half of every valid pair). -/
def pooledVals (v1 v2 : List (Option Int)) : List Int :=
  ((validPairs v1 v2).map Prod.fst) ++ ((validPairs v1 v2).map Prod.snd)

/-- Category universe of a pair of rater lists, stated the way the
specification words it: the set of distinct categories observed in the pooled
valid values. -/
def catUniverse (v1 v2 : List (Option Int)) : Finset Int := (pooledVals v1 v2).toFinset

/-- Marginal proportion π_k of one category among the pooled valid values. -/
def piSpec (v1 v2 : List (Option Int)) (c : Int) : Rat :=
  ((pooledVals v1 v2).count c : Rat) / (2 * (numValidPairs v1 v2 : Rat))

/-- Chance agreement `pe = (1/(q−1)) · Σ π_k (1−π_k)` of Gwet's AC1, stated
the way the specification words it, with the sum taken over the category
universe as a finite set. -/
def peSpec (v1 v2 : List (Option Int)) : Rat :=
  (1 / ((catUniverse v1 v2).card - 1 : Rat)) *
    ((catUniverse v1 v2).sum (fun c => piSpec v1 v2 c * (1 - piSpec v1 v2 c)))

/-- Distance level of Krippendorff's Alpha (the `level` keyword argument). -/
inductive Level where
  | nominal
  | ordinal
  | ratioLevel
deriving DecidableEq

/-- Distance function `delta` chosen by `calculate_krippendorff_alpha` from the
level: nominal 0/1 indicator, ordinal squared rank distance over the sorted
observed values, ratio squared numeric difference. -/
def deltaFn (level : Level) (allVals : List Int) : Int → Int → Rat :=
  match level with
  | .nominal => fun a b => if a = b then 0 else 1
  | .ordinal =>
    let sorted := sortDedup allVals
    fun a b => ((sorted.indexOf a : Rat) - (sorted.indexOf b : Rat)) ^ 2
  | .ratioLevel => fun a b => ((a : Rat) - (b : Rat)) ^ 2

/-- Non-missing values of one subject row. -/
def rowVals (r : List (Option Int)) : List Int := r.filterMap id

/-- Subjects with at least 2 non-missing ratings (`valid_data` of
`calculate_krippendorff_alpha`). -/
def krValid (rows : List (List (Option Int))) : List (List (Option Int)) :=
  rows.filter (fun r => 2 ≤ (rowVals r).length)

/-- All non-missing values of the qualifying subjects, in row order
(`all_values` of `calculate_krippendorff_alpha`). -/
def krAllVals (valid : List (List (Option Int))) : List Int :=
  (valid.map rowVals).flatten

/-- Body of `calculate_krippendorff_alpha` on the subject-major data matrix,
embedding `irr_calculator.py:363-435` faithfully with all of its guards. -/
def krippCore (rows : List (List (Option Int))) (level : Level) : Option Rat :=
  let valid := krValid rows
  if valid.length < 2 then none else
  let allVals := krAllVals valid
  if allVals.dedup.length < 2 then none else
  let d := deltaFn level allVals
  let doPairs := (valid.map (fun r => pairCount (rowVals r))).sum
  if doPairs = 0 then none else
  let Do : Rat := ((valid.map (fun r => pairSum d (rowVals r))).sum) / (doPairs : Rat)
  let dePairs := pairCount allVals
  if dePairs = 0 then none else
  let De : Rat := (pairSum d allVals) / (dePairs : Rat)
  if De = 0 then none else some (1 - Do / De)

/-- Embedding of `IRRCalculator.calculate_krippendorff_alpha`
(`irr_calculator.py:347-437`) for rater-major value lists. -/
def calculate_krippendorff_alpha (lists : List (List (Option Int))) (level : Level) : Option Rat :=
  match buildRows lists with
  | none => none
  | some rows => krippCore rows level

/-- Krippendorff's Alpha as the specification words it: subjects with at least
2 non-missing ratings qualify; Do is the mean distance over all within-subject
pairs; De is the mean pairwise distance over all valid values pooled across
the variable, ignoring subject grouping; the result is Missing when fewer than
2 qualifying subjects remain or De = 0. -/
def krippClaimCore (rows : List (List (Option Int))) (level : Level) : Option Rat :=
  let valid := krValid rows
  if valid.length < 2 then none else
  let allVals := krAllVals valid
  let d := deltaFn level allVals
  let Do : Rat := ((valid.map (fun r => pairSum d (rowVals r))).sum) /
    (((valid.map (fun r => pairCount (rowVals r))).sum : Nat) : Rat)
  let De : Rat := (pairSum d allVals) / (pairCount allVals : Rat)
  if De = 0 then none else some (1 - Do / De)

/-- Rater-major wrapper of `krippClaimCore`. -/
def krippendorffAlphaClaim (lists : List (List (Option Int))) (level : Level) : Option Rat :=
  match buildRows lists with
  | none => none
  | some rows => krippClaimCore rows level

/-- Fully-rated subjects of a ratings matrix, as value rows (`valid_rows` of
`calculate_fleiss_kappa` mapped to their values). -/
def fleissValidRows (m : List (List (Option Int))) : List (List Int) :=
  (m.filter (fun r => r.all Option.isSome)).map (fun r => r.filterMap id)

/-- Per-subject observed agreement `P_i = (sum(counts**2) - k) / (k*(k-1))` of
the Fleiss formula, from one subject's category counts. -/
def fleissPi (k : Nat) (cats : List Int) (row : List Int) : Rat :=
  (((cats.map (fun c => (row.count c) ^ 2)).sum : Rat) - (k : Rat)) / ((k : Rat) * ((k : Rat) - 1))

/-- Embedding of `IRRCalculator.calculate_fleiss_kappa` (`irr_calculator.py:439-481`). -/
def calculate_fleiss_kappa (m : List (List (Option Int))) : Option Rat :=
  let valid := fleissValidRows m
  if valid.length < 2 then none else
  let n := valid.length
  let k := (valid.headD []).length
  let cats := sortDedup valid.flatten
  if cats.length < 2 then none else
  let Pbar : Rat := ((valid.map (fleissPi k cats)).sum) / (n : Rat)
  let pj : List Rat := cats.map (fun c => ((valid.map (fun r => r.count c)).sum : Rat) / ((n : Rat) * (k : Rat)))
  let Pe : Rat := (pj.map (fun p => p ^ 2)).sum
  if Pe = 1 then none else some ((Pbar - Pe) / (1 - Pe))

/-- Fleiss' Kappa as the claim words it: count matrix over the fully-rated
subjects, at least 2 distinct categories required, κ = (P̄ − Pe)/(1 − Pe) with
P̄ the mean per-subject Fleiss agreement and Pe = Σ p_j² over pooled category
marginals, Undefined (no value) when Pe = 1.  No minimum subject count is
imposed, since the claim states none. -/
def fleissKappaClaim (m : List (List (Option Int))) : Option Rat :=
  let valid := fleissValidRows m
  let n := valid.length
  let k := (valid.headD []).length
  let cats := sortDedup valid.flatten
  if cats.length < 2 then none else
  let Pbar : Rat := ((valid.map (fleissPi k cats)).sum) / (n : Rat)
  let pj : List Rat := cats.map (fun c => ((valid.flatten.count c : Rat)) / ((n : Rat) * (k : Rat)))
  let Pe : Rat := (pj.map (fun p => p ^ 2)).sum
  if Pe = 1 then none else some ((Pbar - Pe) / (1 - Pe))

/-- Variable type of the configuration lists `BINARY_VARIABLES`,
`COUNT_VARIABLES`, `ORDINAL_VARIABLES`. -/
inductive VarType where
  | binary
  | count
  | ordinalVar
deriving DecidableEq

/-- Per-variable IRR record assembled by `compare_coders`
(`irr_calculator.py:519-538`), restricted to the statistic fields the
aggregation reads.  Only `kappa` can be NaN (sklearn); the in-repository
statistics return `None` for every degenerate case. -/
structure VarResult where
  agreement : Option Rat
  kappa : Option PyFloat
  gwet_ac1 : Option Rat
  kripp_alpha : Option Rat
  icc : Option Rat
deriving DecidableEq

/-- Statistic fields computed by `compare_coders` for one variable from the two
coders' normalized value lists (`irr_calculator.py:516-538`): binary/ordinal
variables get kappa, AC1 and nominal/ordinal Alpha; count variables get ICC and
ratio Alpha; a statistic that is not computed is `None` (the `r.get(...)` of the
aggregation). -/
def mkVarResult (ty : VarType) (v1 v2 : List (Option Int)) : VarResult :=
  match ty with
  | .binary =>
    { agreement := calculate_agreement v1 v2
      kappa := calculate_kappa v1 v2
      gwet_ac1 := calculate_gwet_ac1 v1 v2
      kripp_alpha := calculate_krippendorff_alpha [v1, v2] .nominal
      icc := none }
  | .ordinalVar =>
    { agreement := calculate_agreement v1 v2
      kappa := calculate_kappa v1 v2
      gwet_ac1 := calculate_gwet_ac1 v1 v2
      kripp_alpha := calculate_krippendorff_alpha [v1, v2] .ordinal
      icc := none }
  | .count =>
    { agreement := calculate_agreement v1 v2
      kappa := none
      gwet_ac1 := none
      kripp_alpha := calculate_krippendorff_alpha [v1, v2] .ratioLevel
      icc := calculate_icc (v1.map (Option.map (fun (i : Int) => (i : Rat))))
                           (v2.map (Option.map (fun (i : Int) => (i : Rat)))) }

/-- Dataset-level summary fields produced by `compare_coders`
(`irr_calculator.py:542-568`), restricted to the aggregate statistics. -/
structure Summary where
  overall_agreement : Option Rat
  mean_kappa : Option Rat
  n_kappa_valid : Nat
  n_kappa_perfect_agreement : Nat
  mean_gwet_ac1 : Option Rat
  n_ac1_valid : Nat
  mean_kripp_alpha : Option Rat
  n_kripp_valid : Nat
  mean_icc : Option Rat
deriving DecidableEq

/-- Numeric value of a possibly-missing possibly-NaN statistic: the filter
`r is not None and not np.isnan(r)` of the aggregation. -/
def pvalOf (v : Option PyFloat) : Option Rat :=
  match v with
  | some (.val x) => some x
  | _ => none

/-- Embedding of the aggregation step of `compare_coders`
(`irr_calculator.py:542-568`): each dataset-level mean averages the
per-variable entries that are present (not `None`, not NaN), and
`n_kappa_perfect_agreement` counts the NaN kappas. -/
def summarize (rs : List VarResult) : Summary :=
  { overall_agreement := pyMean (rs.filterMap (fun r => r.agreement))
    mean_kappa := pyMean (rs.filterMap (fun r => pvalOf r.kappa))
    n_kappa_valid := (rs.filterMap (fun r => pvalOf r.kappa)).length
    n_kappa_perfect_agreement := rs.countP (fun r => decide (r.kappa = some .nan))
    mean_gwet_ac1 := pyMean (rs.filterMap (fun r => r.gwet_ac1))
    n_ac1_valid := (rs.filterMap (fun r => r.gwet_ac1)).length
    mean_kripp_alpha := pyMean (rs.filterMap (fun r => r.kripp_alpha))
    n_kripp_valid := (rs.filterMap (fun r => r.kripp_alpha)).length
    mean_icc := pyMean (rs.filterMap (fun r => r.icc)) }

/-- Per-variable record whose statistics carry no numeric value at all (every
entry either Missing or NaN). -/
def degenerateVar (v : VarResult) : Prop :=
  v.agreement = none ∧ (v.kappa = none ∨ v.kappa = some .nan) ∧
  v.gwet_ac1 = none ∧ v.kripp_alpha = none ∧ v.icc = none

/-- ICC being Undefined in the sense of the specification's tri-state result:
the input is sufficient (at least 3 valid pairs) but the mean-square
denominator is degenerate. -/
def iccUndefinedSpec (v1 v2 : List (Option Rat)) : Bool :=
  let vp := validPairs v1 v2
  decide (3 ≤ vp.length) && decide (iccMSrows vp + iccMSerr vp = 0)

end IRR

namespace HumanIRR

/-- Embedding of `calculate_agreement` of `human_irr_calculator.py:67-81` on
numeric values: two missing values agree, one missing value disagrees,
otherwise the numbers are compared.  (`None` stands for both Python `None` and
NaN, which `pd.isna` treats alike; the string fallback of the Python code is
outside the numeric model.) -/
def calculate_agreement (v1 v2 : Option Rat) : Bool :=
  match v1, v2 with
  | none, none => true
  | none, some _ => false
  | some _, none => false
  | some a, some b => decide (a = b)

/-- Pairwise IRR tallies of `calculate_pairwise_irr`
(`human_irr_calculator.py:84-124`). -/
structure PairwiseIRR where
  agreements : Nat
  disagreements : Nat
  total : Nat
  agreement_rate : Rat
deriving DecidableEq

/-- Embedding of the counting loop of `calculate_pairwise_irr` applied to the
list of (subject, variable) value pairs shared by the two coders: every shared
pair is tallied as an agreement or a disagreement, and the rate divides by the
full tally (0 when it is empty). -/
def calculate_pairwise_irr (pairs : List (Option Rat × Option Rat)) : PairwiseIRR :=
  let agreements := pairs.countP (fun p => calculate_agreement p.1 p.2)
  let disagreements := pairs.countP (fun p => !(calculate_agreement p.1 p.2))
  let total := agreements + disagreements
  { agreements := agreements
    disagreements := disagreements
    total := total
    agreement_rate := if 0 < total then (agreements : Rat) / (total : Rat) else 0 }

/-- Classification of one subject by the three-way loop. -/
inductive AgreeClass where
  | allA
  | twoA
  | noneA
deriving DecidableEq

/-- Branch structure of the loop body of `calculate_three_way_agreement`
(`human_irr_calculator.py:144-157`) on one (human, claude, chatgpt) triple. -/
def classifyTriple (t : Option Rat × Option Rat × Option Rat) : AgreeClass :=
  let h_c := calculate_agreement t.1 t.2.1
  let h_g := calculate_agreement t.1 t.2.2
  let c_g := calculate_agreement t.2.1 t.2.2
  if h_c && h_g && c_g then .allA
  else if h_c || h_g || c_g then .twoA
  else .noneA

/-- Three-way agreement tallies of `calculate_three_way_agreement`. -/
structure ThreeWay where
  total : Nat
  all_three_agree : Nat
  two_agree : Nat
  none_agree : Nat
  full_agreement_rate : Rat
  majority_agreement_rate : Rat
deriving DecidableEq

/-- Embedding of `calculate_three_way_agreement`
(`human_irr_calculator.py:127-167`) applied to the list of (subject, variable)
triples present for all three coders: every triple is counted into `total` and
classified; the rates divide by `total` (0 when it is empty). -/
def calculate_three_way_agreement (ts : List (Option Rat × Option Rat × Option Rat)) : ThreeWay :=
  let total := ts.length
  let allA := ts.countP (fun t => decide (classifyTriple t = .allA))
  let twoA := ts.countP (fun t => decide (classifyTriple t = .twoA))
  let noneA := ts.countP (fun t => decide (classifyTriple t = .noneA))
  { total := total
    all_three_agree := allA
    two_agree := twoA
    none_agree := noneA
    full_agreement_rate := if 0 < total then (allA : Rat) / (total : Rat) else 0
    majority_agreement_rate := if 0 < total then ((allA : Rat) + (twoA : Rat)) / (total : Rat) else 0 }

/-- Qualifying subject in the claim's sense: at least 2 of the three values
are non-missing. -/
def qualifies (t : Option Rat × Option Rat × Option Rat) : Bool :=
  2 ≤ (t.1.toList.length + t.2.1.toList.length + t.2.2.toList.length)

/-- Classification of a qualifying subject as the claim words it: all three
agree; or exactly two of three match; or none agree. -/
def claimClassify (t : Option Rat × Option Rat × Option Rat) : AgreeClass :=
  match t with
  | (some a, some b, some c) =>
    if a = b ∧ b = c then .allA
    else if a = b ∨ b = c ∨ a = c then .twoA
    else .noneA
  | (some a, some b, none) => if a = b then .twoA else .noneA
  | (some a, none, some c) => if a = c then .twoA else .noneA
  | (none, some b, some c) => if b = c then .twoA else .noneA
  | _ => .noneA

/-- Three-way classifier as the claim words it: only qualifying subjects (at
least 2 non-missing values) are classified and counted, and the two rates
divide by the number of qualifying subjects. -/
def threeWayClaim (ts : List (Option Rat × Option Rat × Option Rat)) : ThreeWay :=
  let qs := ts.filter qualifies
  let total := qs.length
  let allA := qs.countP (fun t => decide (claimClassify t = .allA))
  let twoA := qs.countP (fun t => decide (claimClassify t = .twoA))
  let noneA := qs.countP (fun t => decide (claimClassify t = .noneA))
  { total := total
    all_three_agree := allA
    two_agree := twoA
    none_agree := noneA
    full_agreement_rate := if 0 < total then (allA : Rat) / (total : Rat) else 0
    majority_agreement_rate := if 0 < total then ((allA : Rat) + (twoA : Rat)) / (total : Rat) else 0 }

end HumanIRR

/-! Helper lemmas bridging the embedded code to the specification's wording. -/

theorem validPairs_swap {α β : Type} (v1 : List (Option α)) (v2 : List (Option β)) :
    validPairs v2 v1 = (validPairs v1 v2).map Prod.swap := by
  unfold validPairs
  rw [← List.zip_swap v1 v2, List.filterMap_map, List.map_filterMap]
  congr 1
  funext p
  rcases p with ⟨a | a, b | b⟩ <;> rfl

theorem length_validPairs (v1 v2 : List (Option Int)) :
    (validPairs v1 v2).length = IRR.numValidPairs v1 v2 := by
  unfold validPairs IRR.numValidPairs
  rw [List.length_filterMap_eq_countP]
  apply List.countP_congr
  intro p _
  rcases p with ⟨a | a, b | b⟩ <;> simp [pickPair]

theorem countEq_validPairs (v1 v2 : List (Option Int)) :
    (validPairs v1 v2).countP (fun p => decide (p.1 = p.2)) = IRR.numMatchingPairs v1 v2 := by
  unfold validPairs IRR.numMatchingPairs
  induction v1.zip v2 with
  | nil => rfl
  | cons x xs ih =>
    rcases x with ⟨a | a, b | b⟩ <;>
      simp [pickPair, List.filterMap_cons, List.countP_cons, ih]

theorem numValidPairs_symm (v1 v2 : List (Option Int)) :
    IRR.numValidPairs v2 v1 = IRR.numValidPairs v1 v2 := by
  rw [← length_validPairs, ← length_validPairs, validPairs_swap v1 v2, List.length_map]

theorem numMatchingPairs_symm (v1 v2 : List (Option Int)) :
    IRR.numMatchingPairs v2 v1 = IRR.numMatchingPairs v1 v2 := by
  rw [← countEq_validPairs, ← countEq_validPairs, validPairs_swap v1 v2, List.countP_map]
  apply List.countP_congr
  intro p _
  simp [Function.comp, Prod.swap, eq_comm]

theorem sortDedup_perm {l₁ l₂ : List Int} (h : l₁.Perm l₂) : sortDedup l₁ = sortDedup l₂ := by
  apply List.eq_of_perm_of_sorted (r := (· ≤ ·))
  · exact (List.perm_insertionSort _ _).trans (h.dedup.trans (List.perm_insertionSort _ _).symm)
  · exact List.sorted_insertionSort _ _
  · exact List.sorted_insertionSort _ _

theorem sortDedup_length (l : List Int) : (sortDedup l).length = l.toFinset.card := by
  rw [sortDedup, List.length_insertionSort, List.card_toFinset]

theorem sortDedup_map_sum (l : List Int) (f : Int → Rat) :
    ((sortDedup l).map f).sum = l.toFinset.sum f := by
  have h1 : ((sortDedup l).map f).sum = ((l.dedup).map f).sum :=
    ((List.perm_insertionSort _ _).map f).sum_eq
  rw [h1, List.toFinset, Multiset.toFinset, Finset.sum]
  simp only [Multiset.quot_mk_to_coe, Multiset.coe_dedup]
  rw [Multiset.map_coe, Multiset.sum_coe]

theorem all_eq_of_dedup_lt {l : List Int} (h : l.dedup.length < 2) :
    ∀ a ∈ l, ∀ b ∈ l, a = b := by
  intro a ha b hb
  have ha2 : a ∈ l.dedup := List.mem_dedup.mpr ha
  have hb2 : b ∈ l.dedup := List.mem_dedup.mpr hb
  match hd : l.dedup with
  | [] => rw [hd] at ha2; cases ha2
  | [x] =>
    rw [hd] at ha2 hb2
    simp only [List.mem_singleton] at ha2 hb2
    rw [ha2, hb2]
  | x :: y :: zs => rw [hd] at h; simp at h; omega

theorem pairSum_eq_zero {d : Int → Int → Rat} :
    ∀ {l : List Int}, (∀ a ∈ l, ∀ b ∈ l, d a b = 0) → pairSum d l = 0 := by
  intro l
  induction l with
  | nil => intro _; rfl
  | cons x xs ih =>
    intro h
    rw [pairSum]
    have h1 : (xs.map (d x)).sum = 0 := by
      apply List.sum_eq_zero
      intro y hy
      rcases List.mem_map.mp hy with ⟨b, hb, hxb⟩
      rw [← hxb]
      exact h x (List.mem_cons_self x xs) b (List.mem_cons_of_mem x hb)
    have h2 : pairSum d xs = 0 :=
      ih (fun a ha b hb => h a (List.mem_cons_of_mem x ha) b (List.mem_cons_of_mem x hb))
    rw [h1, h2, add_zero]

theorem pairCount_pos {α : Type} {l : List α} (h : 2 ≤ l.length) : 0 < pairCount l := by
  match l with
  | [] => simp at h
  | [x] => simp at h
  | x :: y :: zs => rw [pairCount]; simp

theorem deltaFn_diag (level : IRR.Level) (vals : List Int) (a : Int) :
    IRR.deltaFn level vals a a = 0 := by
  cases level with
  | nominal => simp [IRR.deltaFn]
  | ordinal => simp [IRR.deltaFn]
  | ratioLevel => simp [IRR.deltaFn]

theorem countP_three_partition {α : Type} (f : α → HumanIRR.AgreeClass) (l : List α) :
    l.countP (fun t => decide (f t = .allA)) + l.countP (fun t => decide (f t = .twoA)) +
      l.countP (fun t => decide (f t = .noneA)) = l.length := by
  induction l with
  | nil => rfl
  | cons x xs ih =>
    simp only [List.countP_cons, List.length_cons]
    cases hf : f x <;> simp [hf] <;> omega

/-! Main theorems, one per claim. -/

/-- C3: for every pair of value lists, `calculate_agreement` returns the number
of valid pairs (both values non-missing) whose values are equal divided by the
number of valid pairs, and Missing (`None`) when there are zero valid pairs;
for `values1=[1,1,0,0,1]` and `values2=[1,0,0,0,1]` it returns `0.8 = 4/5`. -/
theorem percent_agreement_spec :
    (∀ v1 v2 : List (Option Int),
      IRR.calculate_agreement v1 v2 =
        if IRR.numValidPairs v1 v2 = 0 then none
        else some ((IRR.numMatchingPairs v1 v2 : Rat) / (IRR.numValidPairs v1 v2 : Rat))) ∧
    IRR.calculate_agreement [some 1, some 1, some 0, some 0, some 1]
        [some 1, some 0, some 0, some 0, some 1] = some (4/5) := by
  constructor
  · intro v1 v2
    rw [IRR.calculate_agreement]
    simp only [length_validPairs, countEq_validPairs]
  · with_unfolding_all decide

/-- C9: every raw rating that parses as a number is truncated toward zero by
`int(float(v))` before any statistic is computed (so `0.9` and `0.2` both
normalize to `0` and count as an agreement), while `None`, the empty string,
NaN and non-numeric text normalize to Missing (`None`), never to `0`. -/
theorem normalize_value_spec :
    (∀ q : Rat, IRR.normalize_value (.numVal q) = some (truncRat q) ∧
                IRR.normalize_value (.numStr q) = some (truncRat q)) ∧
    (IRR.normalize_value (.numVal (9/10)) = some 0 ∧
     IRR.normalize_value (.numVal (1/5)) = some 0 ∧
     IRR.calculate_agreement [IRR.normalize_value (.numVal (9/10))]
        [IRR.normalize_value (.numVal (1/5))] = some 1) ∧
    (IRR.normalize_value .pyNone = none ∧ IRR.normalize_value .emptyStr = none ∧
     IRR.normalize_value .nanVal = none ∧ IRR.normalize_value .badStr = none) := by
  refine ⟨fun q => ⟨rfl, rfl⟩, ⟨?_, ?_, ?_⟩, rfl, rfl, rfl, rfl⟩
  · with_unfolding_all decide
  · with_unfolding_all decide
  · with_unfolding_all decide

/-- C10: in the human IRR pairwise comparison, a pair with both values missing
counts as an agreement and stays in the denominator, a pair with exactly one
value missing counts as a disagreement, and no pair is ever excluded from the
comparison count (`total` is the number of shared pairs). -/
theorem human_missing_handling_spec :
    HumanIRR.calculate_agreement none none = true ∧
    (∀ x : Rat, HumanIRR.calculate_agreement (some x) none = false ∧
                HumanIRR.calculate_agreement none (some x) = false) ∧
    (∀ pairs : List (Option Rat × Option Rat),
      (HumanIRR.calculate_pairwise_irr pairs).total = pairs.length ∧
      (HumanIRR.calculate_pairwise_irr pairs).agreements =
        pairs.countP (fun p => HumanIRR.calculate_agreement p.1 p.2)) ∧
    HumanIRR.calculate_pairwise_irr [(none, none), (some 1, none), (some 0, some 0)] =
      { agreements := 2, disagreements := 1, total := 3, agreement_rate := 2/3 } := by
  refine ⟨rfl, fun x => ⟨rfl, rfl⟩, fun pairs => ⟨?_, rfl⟩, by with_unfolding_all decide⟩
  show pairs.countP _ + pairs.countP _ = pairs.length
  rw [List.length_eq_countP_add_countP (fun p => HumanIRR.calculate_agreement p.1 p.2)]
  congr 1
  apply List.countP_congr
  intro p _
  cases HumanIRR.calculate_agreement p.1 p.2 <;> simp

theorem calculate_agreement_shape (v1 v2 : List (Option Int)) :
    IRR.calculate_agreement v1 v2 =
      if IRR.numValidPairs v1 v2 = 0 then none
      else some ((IRR.numMatchingPairs v1 v2 : Rat) / (IRR.numValidPairs v1 v2 : Rat)) := by
  rw [IRR.calculate_agreement]
  simp only [length_validPairs, countEq_validPairs]

theorem gwet_ac1_shape (v1 v2 : List (Option Int)) :
    IRR.calculate_gwet_ac1 v1 v2 =
      if IRR.numValidPairs v1 v2 < 2 then none
      else if (IRR.catUniverse v1 v2).card < 2 then none
      else if IRR.peSpec v1 v2 = 1 then none
      else some ((IRR.paSpec v1 v2 - IRR.peSpec v1 v2) / (1 - IRR.peSpec v1 v2)) := by
  have hpa : IRR.paSpec v1 v2 =
      ((validPairs v1 v2).countP (fun p => decide (p.1 = p.2)) : Rat) /
        ((validPairs v1 v2).length : Rat) := by
    rw [IRR.paSpec, ← countEq_validPairs, ← length_validPairs]
  have hq : (IRR.catUniverse v1 v2).card = (sortDedup (IRR.pooledVals v1 v2)).length :=
    (sortDedup_length _).symm
  have hpe : IRR.peSpec v1 v2 =
      (1 / (((sortDedup (IRR.pooledVals v1 v2)).length : Rat) - 1)) *
        (((sortDedup (IRR.pooledVals v1 v2)).map (fun c =>
          ((IRR.pooledVals v1 v2).count c : Rat) / (2 * ((validPairs v1 v2).length : Rat)) *
          (1 - ((IRR.pooledVals v1 v2).count c : Rat) / (2 * ((validPairs v1 v2).length : Rat))))).sum) := by
    rw [IRR.peSpec, hq, IRR.catUniverse, ← sortDedup_map_sum (IRR.pooledVals v1 v2)
      (fun c => IRR.piSpec v1 v2 c * (1 - IRR.piSpec v1 v2 c))]
    congr 1
    apply congrArg List.sum
    apply List.map_congr_left
    intro c _
    rw [IRR.piSpec, ← length_validPairs]
  rw [IRR.calculate_gwet_ac1, hpa, hpe, hq, ← length_validPairs]
  rfl

theorem pooledVals_swap_perm (v1 v2 : List (Option Int)) :
    (IRR.pooledVals v2 v1).Perm (IRR.pooledVals v1 v2) := by
  unfold IRR.pooledVals
  rw [validPairs_swap v1 v2, List.map_map, List.map_map]
  have h1 : (Prod.fst ∘ Prod.swap : Int × Int → Int) = Prod.snd := rfl
  have h2 : (Prod.snd ∘ Prod.swap : Int × Int → Int) = Prod.fst := rfl
  rw [h1, h2]
  exact List.perm_append_comm

theorem catUniverse_symm (v1 v2 : List (Option Int)) :
    IRR.catUniverse v2 v1 = IRR.catUniverse v1 v2 :=
  List.toFinset_eq_of_perm _ _ (pooledVals_swap_perm v1 v2)

theorem piSpec_symm (v1 v2 : List (Option Int)) (c : Int) :
    IRR.piSpec v2 v1 c = IRR.piSpec v1 v2 c := by
  rw [IRR.piSpec, IRR.piSpec, (pooledVals_swap_perm v1 v2).count_eq, numValidPairs_symm]

theorem peSpec_symm (v1 v2 : List (Option Int)) : IRR.peSpec v2 v1 = IRR.peSpec v1 v2 := by
  rw [IRR.peSpec, IRR.peSpec, catUniverse_symm]
  congr 1
  apply Finset.sum_congr rfl
  intro c _
  rw [piSpec_symm]

theorem paSpec_symm (v1 v2 : List (Option Int)) : IRR.paSpec v2 v1 = IRR.paSpec v1 v2 := by
  rw [IRR.paSpec, IRR.paSpec, numValidPairs_symm, numMatchingPairs_symm]

/-- C8: percent agreement and Gwet's AC1 are symmetric in the two raters,
including the Missing/Undefined (`None`) cases: swapping the two value lists
never changes either result. -/
theorem agreement_ac1_symmetry :
    ∀ v1 v2 : List (Option Int),
      IRR.calculate_agreement v1 v2 = IRR.calculate_agreement v2 v1 ∧
      IRR.calculate_gwet_ac1 v1 v2 = IRR.calculate_gwet_ac1 v2 v1 := by
  intro v1 v2
  constructor
  · rw [calculate_agreement_shape, calculate_agreement_shape,
      numValidPairs_symm v1 v2, numMatchingPairs_symm v1 v2]
  · rw [gwet_ac1_shape, gwet_ac1_shape, numValidPairs_symm v1 v2, catUniverse_symm v1 v2,
      peSpec_symm v1 v2, paSpec_symm v1 v2]

/-- C1 counterexample: the claim says the Undefined result (2 valid pairs but a
single observed category) is preserved as distinct from the Missing result
(fewer than 2 valid pairs); in the code both cases return the very same `None`,
so the two outcomes are not distinct. -/
theorem gwet_ac1_undefined_not_distinct_counterexample :
    IRR.calculate_gwet_ac1 [some 0, some 0] [some 0, some 0] = none ∧
    IRR.calculate_gwet_ac1 [some 0] [some 0] = none ∧
    IRR.calculate_gwet_ac1 [some 0, some 0] [some 0, some 0] =
      IRR.calculate_gwet_ac1 [some 0] [some 0] := by
  refine ⟨?_, ?_, ?_⟩ <;> with_unfolding_all decide

/-- C1 amended: for two raters `calculate_gwet_ac1` returns
`AC1 = (pa − pe)/(1 − pe)` with `pa` the fraction of matching valid pairs and
`pe = (1/(q−1))·Σ π_k(1−π_k)` over the pooled category universe, provided at
least 2 valid pairs, at least 2 observed categories and `pe ≠ 1`; with fewer
than 2 valid pairs, or with `q < 2` or `pe = 1`, it returns `None` — the same
value in every degenerate case, so Undefined is not distinguished from Missing
by this function. -/
theorem gwet_ac1_amended :
    (∀ v1 v2 : List (Option Int), IRR.numValidPairs v1 v2 < 2 →
      IRR.calculate_gwet_ac1 v1 v2 = none) ∧
    (∀ v1 v2 : List (Option Int), 2 ≤ IRR.numValidPairs v1 v2 →
      (IRR.catUniverse v1 v2).card < 2 → IRR.calculate_gwet_ac1 v1 v2 = none) ∧
    (∀ v1 v2 : List (Option Int), 2 ≤ IRR.numValidPairs v1 v2 →
      2 ≤ (IRR.catUniverse v1 v2).card → IRR.peSpec v1 v2 ≠ 1 →
      IRR.calculate_gwet_ac1 v1 v2 =
        some ((IRR.paSpec v1 v2 - IRR.peSpec v1 v2) / (1 - IRR.peSpec v1 v2))) := by
  refine ⟨?_, ?_, ?_⟩
  · intro v1 v2 h
    rw [gwet_ac1_shape, if_pos h]
  · intro v1 v2 h hq
    rw [gwet_ac1_shape, if_neg (by omega), if_pos hq]
  · intro v1 v2 h hq hpe
    rw [gwet_ac1_shape, if_neg (by omega), if_neg (by omega), if_neg hpe]

/-- Witness for `gwet_ac1_amended`: the three regimes at concrete inputs —
one valid pair (Missing), two valid pairs of a single category (`None` again),
and two valid pairs over categories `{0, 1}` with AC1 = 1. -/
theorem gwet_ac1_amended_witness :
    (IRR.numValidPairs [some 0] [some 0] < 2 ∧
      IRR.calculate_gwet_ac1 [some 0] [some 0] = none) ∧
    (2 ≤ IRR.numValidPairs [some 0, some 0] [some 0, some 0] ∧
      (IRR.catUniverse [some 0, some 0] [some 0, some 0]).card < 2 ∧
      IRR.calculate_gwet_ac1 [some 0, some 0] [some 0, some 0] = none) ∧
    (2 ≤ IRR.numValidPairs [some 0, some 1] [some 0, some 1] ∧
      2 ≤ (IRR.catUniverse [some 0, some 1] [some 0, some 1]).card ∧
      IRR.peSpec [some 0, some 1] [some 0, some 1] ≠ 1 ∧
      IRR.calculate_gwet_ac1 [some 0, some 1] [some 0, some 1] =
        some ((IRR.paSpec [some 0, some 1] [some 0, some 1] -
               IRR.peSpec [some 0, some 1] [some 0, some 1]) /
              (1 - IRR.peSpec [some 0, some 1] [some 0, some 1]))) := by
  refine ⟨⟨?h1, ?_⟩, ⟨?h2, ?h3, ?_⟩, ⟨?h4, ?h5, ?h6, ?_⟩⟩
  case h1 => with_unfolding_all decide
  case h2 => with_unfolding_all decide
  case h3 => with_unfolding_all decide
  case h4 => with_unfolding_all decide
  case h5 => with_unfolding_all decide
  case h6 => with_unfolding_all decide
  · exact gwet_ac1_amended.1 _ _ (by with_unfolding_all decide)
  · exact gwet_ac1_amended.2.1 _ _ (by with_unfolding_all decide) (by with_unfolding_all decide)
  · exact gwet_ac1_amended.2.2 _ _ (by with_unfolding_all decide) (by with_unfolding_all decide)
      (by with_unfolding_all decide)

theorem krValid_mem {rows : List (List (Option Int))} {r : List (Option Int)}
    (h : r ∈ IRR.krValid rows) : 2 ≤ (IRR.rowVals r).length := by
  have h2 := (List.mem_filter.mp h).2
  simpa using h2

theorem krippCore_eq_claim (rows : List (List (Option Int))) (level : IRR.Level) :
    IRR.krippCore rows level = IRR.krippClaimCore rows level := by
  by_cases h2 : (IRR.krValid rows).length < 2
  · simp only [IRR.krippCore, IRR.krippClaimCore, if_pos h2]
  · obtain ⟨v, rest, hv⟩ : ∃ v rest, IRR.krValid rows = v :: rest := by
      cases hx : IRR.krValid rows with
      | nil => rw [hx] at h2; simp at h2
      | cons a as => exact ⟨a, as, rfl⟩
    have hvmem : v ∈ IRR.krValid rows := hv ▸ List.mem_cons_self v rest
    have h2v : 2 ≤ (IRR.rowVals v).length := krValid_mem hvmem
    by_cases h3 : (IRR.krAllVals (IRR.krValid rows)).dedup.length < 2
    · have hall := all_eq_of_dedup_lt h3
      have hzero : pairSum (IRR.deltaFn level (IRR.krAllVals (IRR.krValid rows)))
          (IRR.krAllVals (IRR.krValid rows)) = 0 := by
        apply pairSum_eq_zero
        intro a ha b hb
        rw [hall a ha b hb]
        exact deltaFn_diag _ _ _
      simp only [IRR.krippCore, IRR.krippClaimCore, if_neg h2, if_pos h3, hzero, zero_div]
      simp
    · have hdo : 0 < ((IRR.krValid rows).map (fun r => pairCount (IRR.rowVals r))).sum := by
        rw [hv, List.map_cons, List.sum_cons]
        have hp := pairCount_pos h2v
        omega
      have hde : 2 ≤ (IRR.krAllVals (IRR.krValid rows)).length := by
        rw [IRR.krAllVals, hv, List.map_cons, List.flatten_cons, List.length_append]
        omega
      have hdePos : 0 < pairCount (IRR.krAllVals (IRR.krValid rows)) := pairCount_pos hde
      simp only [IRR.krippCore, IRR.krippClaimCore, if_neg h2, if_neg h3,
        if_neg (Nat.pos_iff_ne_zero.mp hdo), if_neg (Nat.pos_iff_ne_zero.mp hdePos)]

/-- C2: `calculate_krippendorff_alpha` behaves exactly as the claim states, for
every list of rater value lists and every distance level: only subjects with at
least 2 non-missing ratings are used, Do is the mean distance over all
within-subject pairs, De is the mean pairwise distance over all valid values
pooled across the variable ignoring subject grouping, the result is
`1 − Do/De`, and it is Missing (`None`) exactly when fewer than 2 qualifying
subjects remain or De = 0; in a 3-way setting a subject with one missing rater
still contributes (concretely, raters `[1,1,0]`, `[1,0,0]`, `[1,None,0]` give
α = 3/4, where dropping the partially-rated subject would give α = 1). -/
theorem krippendorff_alpha_spec :
    (∀ (lists : List (List (Option Int))) (level : IRR.Level),
      IRR.calculate_krippendorff_alpha lists level = IRR.krippendorffAlphaClaim lists level) ∧
    IRR.calculate_krippendorff_alpha
      [[some 1, some 1, some 0], [some 1, some 0, some 0], [some 1, none, some 0]]
      .nominal = some (3/4) := by
  constructor
  · intro lists level
    rw [IRR.calculate_krippendorff_alpha, IRR.krippendorffAlphaClaim]
    cases hb : buildRows lists with
    | none => rfl
    | some rows => exact krippCore_eq_claim rows level
  · with_unfolding_all decide

/-- C4 counterexample: for the single-subject matrix `[[0, 1, 1]]` (three
raters, all values present, two categories, `P_e = 5/9 ≠ 1`) the claim demands
`κ = (P̄ − P_e)/(1 − P_e) = −1/2`, but `calculate_fleiss_kappa` returns `None`
because it requires at least 2 fully-rated subjects — a condition the claim
does not state. -/
theorem fleiss_kappa_min_subjects_counterexample :
    IRR.calculate_fleiss_kappa [[some 0, some 1, some 1]] = none ∧
    IRR.fleissKappaClaim [[some 0, some 1, some 1]] = some (-(1 : Rat)/2) := by
  constructor <;> with_unfolding_all decide

/-- C4 amended: `calculate_fleiss_kappa` computes Fleiss' Kappa exactly as the
claim states — count matrix over the subjects where all raters provided a
value, at least 2 distinct categories required, κ = (P̄ − P_e)/(1 − P_e), no
value when P_e = 1 — except that it additionally returns Missing (`None`) when
fewer than 2 fully-rated subjects remain; concretely the matrix
`[[0,1,1],[0,0,0]]` gives κ = 1/4. -/
theorem fleiss_kappa_amended :
    (∀ m : List (List (Option Int)),
      IRR.calculate_fleiss_kappa m =
        if (IRR.fleissValidRows m).length < 2 then none else IRR.fleissKappaClaim m) ∧
    IRR.calculate_fleiss_kappa [[some 0, some 1, some 1], [some 0, some 0, some 0]] =
      some (1/4) := by
  constructor
  · intro m
    by_cases h : (IRR.fleissValidRows m).length < 2
    · simp only [IRR.calculate_fleiss_kappa, if_pos h]
    · simp only [IRR.calculate_fleiss_kappa, IRR.fleissKappaClaim, if_neg h]
      have hpj : (sortDedup (IRR.fleissValidRows m).flatten).map (fun c =>
            (((IRR.fleissValidRows m).map (fun r => r.count c)).sum : Rat) /
              (((IRR.fleissValidRows m).length : Rat) *
                (((IRR.fleissValidRows m).headD []).length : Rat)))
          = (sortDedup (IRR.fleissValidRows m).flatten).map (fun c =>
            (((IRR.fleissValidRows m).flatten.count c : Rat)) /
              (((IRR.fleissValidRows m).length : Rat) *
                (((IRR.fleissValidRows m).headD []).length : Rat))) := by
        apply List.map_congr_left
        intro c _
        rw [List.count_flatten]
        push_cast [List.map_map]
        rfl
      rw [hpj]
  · with_unfolding_all decide

/-- C5: `calculate_icc` returns Missing (`None`) when there are fewer than 3
valid pairs, and every non-Missing result of `calculate_icc` and of
`calculate_icc_multi` lies within `[-1, 1]` (the clamp
`max(-1, min(1, icc))` of the source). -/
theorem icc_min_pairs_and_bounds :
    (∀ v1 v2 : List (Option Rat), (validPairs v1 v2).length < 3 →
      IRR.calculate_icc v1 v2 = none) ∧
    (∀ (v1 v2 : List (Option Rat)) (r : Rat), IRR.calculate_icc v1 v2 = some r →
      -1 ≤ r ∧ r ≤ 1) ∧
    (∀ (lists : List (List (Option Rat))) (r : Rat), IRR.calculate_icc_multi lists = some r →
      -1 ≤ r ∧ r ≤ 1) := by
  refine ⟨?_, ?_, ?_⟩
  · intro v1 v2 h
    rw [IRR.calculate_icc]
    simp only [if_pos h]
  · intro v1 v2 r h
    rw [IRR.calculate_icc] at h
    split at h
    · cases h
    · split at h
      · cases h
      · injection h with h
        rw [← h, IRR.pyClamp]
        exact ⟨le_max_left _ _, max_le (by norm_num) (min_le_left _ _)⟩
  · intro lists r h
    rw [IRR.calculate_icc_multi] at h
    split at h
    · cases h
    · dsimp only at h
      split at h
      · cases h
      · rcases Option.map_eq_some'.mp h with ⟨x, _, hr⟩
        rw [← hr, IRR.pyClamp]
        exact ⟨le_max_left _ _, max_le (by norm_num) (min_le_left _ _)⟩

/-- Witness for `icc_min_pairs_and_bounds`: two valid pairs give `None`;
`calculate_icc([1,2,3],[1,2,4]) = 9/10 ∈ [-1,1]`; the two-rater multi input
`[[0,1,2],[0,1,2]]` gives `1 ∈ [-1,1]`. -/
theorem icc_min_pairs_and_bounds_witness :
    ((validPairs ([some 1, some 2] : List (Option Rat)) [some 1, some 2]).length < 3 ∧
      IRR.calculate_icc [some 1, some 2] [some 1, some 2] = none) ∧
    (IRR.calculate_icc [some 1, some 2, some 3] [some 1, some 2, some 4] = some (9/10) ∧
      (-1 ≤ (9 : Rat)/10 ∧ (9 : Rat)/10 ≤ 1)) ∧
    (IRR.calculate_icc_multi [[some 0, some 1, some 2], [some 0, some 1, some 2]] = some 1 ∧
      (-1 ≤ (1 : Rat) ∧ (1 : Rat) ≤ 1)) := by
  refine ⟨⟨?_, ?_⟩, ⟨?_, ?_⟩, ⟨?_, ?_⟩⟩
  · with_unfolding_all decide
  · exact icc_min_pairs_and_bounds.1 _ _ (by with_unfolding_all decide)
  · with_unfolding_all decide
  · exact icc_min_pairs_and_bounds.2.1 [some 1, some 2, some 3] [some 1, some 2, some 4]
      (9/10) (by with_unfolding_all decide)
  · with_unfolding_all decide
  · exact icc_min_pairs_and_bounds.2.2 [[some 0, some 1, some 2], [some 0, some 1, some 2]]
      1 (by with_unfolding_all decide)

/-- C6 counterexample: the claim says the classifier covers the qualifying
subjects (at least 2 non-missing values) and divides by their count; on the
input `[(1,1,1), (None,None,0)]` the code counts the non-qualifying second
triple as well (its two missing values even count as a matching pair), giving a
full agreement rate of 1/2, while the claim demands 1/1. -/
theorem three_way_qualifying_counterexample :
    (HumanIRR.calculate_three_way_agreement
      [(some 1, some 1, some 1), (none, none, some 0)]).full_agreement_rate = 1/2 ∧
    (HumanIRR.threeWayClaim
      [(some 1, some 1, some 1), (none, none, some 0)]).full_agreement_rate = 1 := by
  constructor <;> with_unfolding_all decide

/-- C6 amended: the three-way classifier assigns every (subject, variable)
triple present for all three coders — including those with missing values,
where two missing values count as a match and exactly one missing as a
mismatch — to exactly one of all-agree, majority-agree, none-agree; on fully
present triples the classes are all-three-equal / exactly-two-equal / none;
full agreement rate = all-agree/total and majority agreement rate =
(all-agree + majority-agree)/total over all counted triples; for
`[(1,1,0), (1,1,1), (0,0,0)]` the rates are 2/3 and 3/3. -/
theorem three_way_amended :
    (∀ ts : List (Option Rat × Option Rat × Option Rat),
      (HumanIRR.calculate_three_way_agreement ts).total = ts.length ∧
      (HumanIRR.calculate_three_way_agreement ts).all_three_agree +
        (HumanIRR.calculate_three_way_agreement ts).two_agree +
        (HumanIRR.calculate_three_way_agreement ts).none_agree = ts.length ∧
      (HumanIRR.calculate_three_way_agreement ts).full_agreement_rate =
        (if ts.length = 0 then 0 else
          ((HumanIRR.calculate_three_way_agreement ts).all_three_agree : Rat) /
            (ts.length : Rat)) ∧
      (HumanIRR.calculate_three_way_agreement ts).majority_agreement_rate =
        (if ts.length = 0 then 0 else
          (((HumanIRR.calculate_three_way_agreement ts).all_three_agree : Rat) +
            ((HumanIRR.calculate_three_way_agreement ts).two_agree : Rat)) /
            (ts.length : Rat))) ∧
    (∀ a b c : Rat,
      HumanIRR.classifyTriple (some a, some b, some c) =
        if a = b ∧ b = c then .allA else if a = b ∨ b = c ∨ a = c then .twoA else .noneA) ∧
    HumanIRR.calculate_three_way_agreement
      [(some 1, some 1, some 0), (some 1, some 1, some 1), (some 0, some 0, some 0)] =
      { total := 3, all_three_agree := 2, two_agree := 1, none_agree := 0,
        full_agreement_rate := 2/3, majority_agreement_rate := 1 } := by
  refine ⟨?_, ?_, ?_⟩
  · intro ts
    refine ⟨rfl, countP_three_partition HumanIRR.classifyTriple ts, ?_, ?_⟩ <;>
    · rcases Nat.eq_zero_or_pos ts.length with h | h
      · simp [HumanIRR.calculate_three_way_agreement, h]
      · simp [HumanIRR.calculate_three_way_agreement, h, Nat.pos_iff_ne_zero.mp h]
  · intro a b c
    by_cases hab : a = b <;> by_cases hbc : b = c <;> by_cases hac : a = c
    · simp [HumanIRR.classifyTriple, HumanIRR.calculate_agreement, hab, hbc, hac]
    · exact absurd (hab.trans hbc) hac
    · simp [HumanIRR.classifyTriple, HumanIRR.calculate_agreement, hab, hbc, hac]
    · simp [HumanIRR.classifyTriple, HumanIRR.calculate_agreement, hab, hbc, hac]
    · exact absurd (hac.trans hbc.symm) hab
    · simp [HumanIRR.classifyTriple, HumanIRR.calculate_agreement, hab, hbc, hac]
    · simp [HumanIRR.classifyTriple, HumanIRR.calculate_agreement, hab, hbc, hac]
    · simp [HumanIRR.classifyTriple, HumanIRR.calculate_agreement, hab, hbc, hac]
  · with_unfolding_all decide

/-- C7 counterexample: two concrete count-variable datasets, one with an
Undefined ICC in the specification's sense (3 valid pairs, degenerate
mean-square denominator) and one with a Missing ICC (only 2 valid pairs),
produce identical summaries, so no reported quantity counts the Undefined ICC
entries — the per-statistic Undefined count the claim demands is not reported
(only Cohen's Kappa has one, `n_kappa_perfect_agreement`). -/
theorem aggregation_undefined_count_counterexample :
    IRR.summarize [IRR.mkVarResult .count [some 2, some 2, some 2] [some 2, some 2, some 2]] =
      IRR.summarize [IRR.mkVarResult .count [some 2, some 2] [some 2, some 2]] ∧
    IRR.iccUndefinedSpec [some 2, some 2, some 2] [some 2, some 2, some 2] = true ∧
    IRR.iccUndefinedSpec [some 2, some 2] [some 2, some 2] = false := by
  refine ⟨?_, ?_, ?_⟩ <;> with_unfolding_all decide

/-- C7 amended: every dataset-level mean of the aggregation skips Missing
(`None`) and NaN entries rather than treating them as zero — prepending a
per-variable record with no numeric values leaves every mean unchanged — and a
separate Undefined count is reported only for Cohen's Kappa
(`n_kappa_perfect_agreement`, counting the NaN kappas). -/
theorem aggregation_amended :
    ∀ (rs : List IRR.VarResult) (v : IRR.VarResult), IRR.degenerateVar v →
      ((IRR.summarize (v :: rs)).overall_agreement = (IRR.summarize rs).overall_agreement ∧
       (IRR.summarize (v :: rs)).mean_kappa = (IRR.summarize rs).mean_kappa ∧
       (IRR.summarize (v :: rs)).mean_gwet_ac1 = (IRR.summarize rs).mean_gwet_ac1 ∧
       (IRR.summarize (v :: rs)).mean_kripp_alpha = (IRR.summarize rs).mean_kripp_alpha ∧
       (IRR.summarize (v :: rs)).mean_icc = (IRR.summarize rs).mean_icc) ∧
      (IRR.summarize (v :: rs)).n_kappa_perfect_agreement =
        (IRR.summarize rs).n_kappa_perfect_agreement +
          (if v.kappa = some .nan then 1 else 0) := by
  intro rs v hv
  obtain ⟨ha, hk, hg, hkr, hi⟩ := hv
  have hpk : IRR.pvalOf v.kappa = none := by
    rcases hk with h | h <;> rw [h] <;> rfl
  refine ⟨⟨?_, ?_, ?_, ?_, ?_⟩, ?_⟩ <;>
    simp [IRR.summarize, List.filterMap_cons, List.countP_cons, ha, hpk, hg, hkr, hi]

/-- Witness for `aggregation_amended`: a fully degenerate record (agreement
Missing, kappa NaN, everything else Missing) prepended to a one-variable
dataset leaves the AC1 mean unchanged and raises the NaN-kappa count by one. -/
theorem aggregation_amended_witness :
    IRR.degenerateVar ⟨none, some .nan, none, none, none⟩ ∧
    (IRR.summarize ((⟨none, some .nan, none, none, none⟩ : IRR.VarResult) ::
        [IRR.mkVarResult .binary [some 0, some 1] [some 0, some 1]])).mean_gwet_ac1 =
      (IRR.summarize [IRR.mkVarResult .binary [some 0, some 1] [some 0, some 1]]).mean_gwet_ac1 ∧
    (IRR.summarize ((⟨none, some .nan, none, none, none⟩ : IRR.VarResult) ::
        [IRR.mkVarResult .binary [some 0, some 1] [some 0, some 1]])).n_kappa_perfect_agreement =
      (IRR.summarize [IRR.mkVarResult .binary [some 0, some 1] [some 0, some 1]]).n_kappa_perfect_agreement +
        (if (⟨none, some .nan, none, none, none⟩ : IRR.VarResult).kappa = some .nan
          then 1 else 0) := by
  have hdeg : IRR.degenerateVar ⟨none, some .nan, none, none, none⟩ :=
    ⟨rfl, Or.inr rfl, rfl, rfl, rfl⟩
  have h := aggregation_amended
    [IRR.mkVarResult .binary [some 0, some 1] [some 0, some 1]] _ hdeg
  exact ⟨hdeg, h.1.2.2.1, h.2⟩
